import Mathlib

set_option maxHeartbeats 1000000

/-!
Verification of the object-dispatch core of `tg/controllers/dispatcher.py`
(TurboGears 2 style object publishing).

The dispatch engine is embedded shallowly: controller objects become an
inductive graph type, the mutable `DispatchState` becomes a record threaded
through the recursion, and the mutually recursive methods
`ObjectDispatcher._dispatch`, `ObjectDispatcher._dispatch_controller` and
`ObjectDispatcher._dispatch_first_found_default_or_lookup` become a single
fuel-indexed interpreter `run` over a defunctionalized `Call` type (the
three constructors correspond to the three Python methods).  Python
exceptions (`HTTPNotFound`, a denying `_check_security`) become explicit
outcomes.  Observable actions (security checks, lookup invocations,
`add_method` calls, fallback-walk entries) are recorded in a trace so that
temporal claims about the engine can be stated.
-/

/-- A controller object of the dispatched graph.  `attrs` lists the
ordinary attributes consulted by `getattr`/`hasattr`: an entry `(n, none)`
is a plain method attribute (`ismethod` holds), and `(n, some c)` is a
non-method attribute holding the sub-object `c`.  `security` is `some b`
when the object has a `_check_security` method, `b = true` meaning that the
hook raises (denies).  `lookupFn` is `some f` when the object has a
`lookup` method with behaviour `f` (returning a `(controller, remainder)`
pair).  `hasDispatchFlag` models `hasattr(controller, '_dispatch')`, i.e.
whether the object brings its own dispatch (inherits the dispatcher). -/
inductive Controller : Type where
  | mk : List (String × Option Controller) → Option Bool →
         Option (List String → Controller × List String) → Bool → Controller

def Controller.attrs : Controller → List (String × Option Controller)
  | .mk a _ _ _ => a

def Controller.security : Controller → Option Bool
  | .mk _ s _ _ => s

def Controller.lookupFn : Controller → Option (List String → Controller × List String)
  | .mk _ _ l _ => l

def Controller.hasDispatchFlag : Controller → Bool
  | .mk _ _ _ d => d

/-- Looks up an ordinary attribute (first match, Python attribute names are
unique on an object). -/
def attrFind (c : Controller) (n : String) : Option (Option Controller) :=
  (c.attrs.find? (fun p => p.1 == n)).map (fun p => p.2)

/-- `hasattr(controller, n)`: the special methods `_check_security`,
`lookup` and `_dispatch` are carried by the dedicated fields, everything
else by `attrs`. -/
def hasattrB (c : Controller) (n : String) : Bool :=
  (n == "_check_security" && c.security.isSome) ||
  (n == "lookup" && c.lookupFn.isSome) ||
  (n == "_dispatch" && c.hasDispatchFlag) ||
  (attrFind c n).isSome

/-- `ismethod(getattr(controller, n))` (meaningful when the attribute is
present): the special hooks are methods, an `attrs` entry is a method
exactly when it carries no sub-object. -/
def ismethodOf (c : Controller) (n : String) : Bool :=
  if n == "_check_security" && c.security.isSome then true
  else if n == "lookup" && c.lookupFn.isSome then true
  else if n == "_dispatch" && c.hasDispatchFlag then true
  else
    match attrFind c n with
    | some none => true
    | _ => false

/-- `ObjectDispatcher._is_exposed` (dispatcher.py lines 281-293): true iff
the controller has an attribute of that name and the attribute is a
method.  No exposure decoration is consulted. -/
def is_exposed (c : Controller) (n : String) : Bool :=
  hasattrB c n && ismethodOf c n

/-- The sub-object reached by `getattr` when the attribute is present and
is not a method (the descend case of `_dispatch`, lines 382-385). -/
def subLookup (c : Controller) (n : String) : Option Controller :=
  match attrFind c n with
  | some (some sub) => some sub
  | _ => none

/-- A value stored in `routing_args`: either one path segment or a leftover
segment list. -/
inductive RVal where
  | str : String → RVal
  | strs : List String → RVal
  deriving DecidableEq

/-- `DispatchState` (dispatcher.py lines 29-68). -/
structure DState where
  url_path : List String
  params : List (String × String)
  controller_path : List (String × Controller)
  routing_args : List (String × RVal)
  method : Option (Controller × String)
  remainder : Option (List String)
  dispatcher : Option Controller

/-- Modelled from the spec: `tg.util.odict` (imported by dispatcher.py but
not under src/) is an ordered mapping whose insertion order is significant;
setting an existing key replaces its value in place, setting a new key
appends; `getitem(-1)` reads the last entry and `pop()` removes it.
Embedded as an association list. -/
def odictSet (m : List (String × Controller)) (k : String) (v : Controller) :
    List (String × Controller) :=
  if (m.find? (fun p => p.1 == k)).isSome then
    m.map (fun p => if p.1 == k then (k, v) else p)
  else m ++ [(k, v)]

/-- `DispatchState.add_controller` (lines 45-47). -/
def add_controller (st : DState) (location : String) (c : Controller) : DState :=
  { st with controller_path := odictSet st.controller_path location c }

/-- `DispatchState.add_method` (lines 49-52): records the final method and
its remainder.  A resolved method is identified by its owning controller
and its attribute name. -/
def add_method (st : DState) (m : Controller × String) (remainder : List String) : DState :=
  { st with method := some m, remainder := some remainder }

/-- An observable action of the dispatch engine, recorded in a trace:
invocation of a `_check_security` hook, invocation of a `lookup` method
(with its arguments), an `add_method` call (controller, attribute name,
remainder), and entry into the fallback walk of
`_dispatch_first_found_default_or_lookup` (recording the visited-controller
stack, most recent last, and the un-matched segments). -/
inductive Ev where
  | secCheck : Controller → Ev
  | lookupCall : Controller → List String → Ev
  | addMethod : Controller → String → List String → Ev
  | fbWalk : List Controller → List String → Ev

abbrev Trace := List Ev

/-- The outcome of a dispatch computation: a returned state, the raised
`HTTPNotFound`, a raising `_check_security` hook, exhausted fuel (the
source has no termination guard, see spec section 9), or an internal error
of the model (unreachable on states the engine itself builds). -/
inductive Outcome where
  | ok : DState → Outcome
  | notFound : Outcome
  | securityRejected : Outcome
  | outOfFuel : Outcome
  | err : Outcome

abbrev Res := Trace × Outcome

def withPre (t : Trace) (r : Res) : Res := (t ++ r.1, r.2)

/-- One decision of the fallback loop body of
`_dispatch_first_found_default_or_lookup` (lines 340-355): raise
`HTTPNotFound` after the walk is exhausted, resolve to a `default` method,
or invoke a `lookup` method and restart. -/
inductive FbStep where
  | raiseNF : FbStep
  | stepErr : FbStep
  | found : Controller → DState → List String → FbStep
  | doLookup : Controller → List String → Controller → DState → List String → FbStep

/-- The `for i in xrange(len(state.controller_path))` walk of
`_dispatch_first_found_default_or_lookup` (lines 340-355), as a pure
function: examine the top of the visited stack; on `default` resolve, on
`lookup` call it and request a restart (restoring `url_path` to the
original: `origPath` is `none` when `state.url_path` was left aliased to
`orig_url_path` because the entry remainder was empty, in which case the
restore is the identity); otherwise pop the controller, push the segment
that led into it back onto the pending remainder, and continue. -/
def fallbackWalk (origPath : Option (List String)) : Nat → DState → List String → FbStep
  | 0, _, _ => .raiseNF
  | k+1, st, remainder =>
    match st.controller_path.getLast? with
    | none => .stepErr
    | some kc =>
      let c := kc.2
      if is_exposed c "default" then .found c st remainder
      else if is_exposed c "lookup" then
        match c.lookupFn with
        | some fn =>
          let cr := fn remainder
          .doLookup c remainder cr.1 { st with url_path := origPath.getD st.url_path } cr.2
        | none => .stepErr
      else
        let st1 := { st with controller_path := st.controller_path.dropLast }
        if st1.url_path.isEmpty then fallbackWalk origPath k st1 remainder
        else fallbackWalk origPath k { st1 with url_path := st1.url_path.dropLast }
               (st1.url_path.getLastD "" :: remainder)

/-- A pending call of the engine: `disp self st remainder` is
`self._dispatch(state, remainder)` (lines 357-388), `dispCtrl self cp c st
remainder` is `self._dispatch_controller(cp, c, state, remainder)` (lines
302-329) and `fbRun self st remainder` is
`self._dispatch_first_found_default_or_lookup(state, remainder)` (lines
331-355). -/
inductive Call where
  | disp : Controller → DState → List String → Call
  | dispCtrl : Controller → String → Controller → DState → List String → Call
  | fbRun : Controller → DState → List String → Call

/-- Trace of `if hasattr(c, '_check_security'): c._check_security()`. -/
def secTrace (c : Controller) : Trace :=
  if c.security.isSome then [.secCheck c] else []

def secDenies (c : Controller) : Bool := c.security == some true

/-- The dispatch engine.  Fuel is consumed at every transition between the
three methods; the source imposes no bound of its own (a caller-supplied
cyclic graph or a looping `lookup` diverges, spec section 9). -/
def run : Nat → Call → Res
  | 0, _ => ([], .outOfFuel)
  | f+1, .disp self st remainder =>
    -- lines 357-388: current_controller = state.controller (top of stack)
    match st.controller_path.getLast? with
    | none => ([], .err)
    | some kc =>
      let cc := kc.2
      if secDenies cc then (secTrace cc, .securityRejected)
      else
        match remainder with
        | [] =>
          -- plumb out of path: check for index (line 367-370)
          if hasattrB cc "index" then
            (secTrace cc ++ [.addMethod cc "index" []], .ok (add_method st (cc, "index") []))
          else withPre (secTrace cc) (run f (.fbRun self st []))
        | cp :: rest =>
          -- an exposed method matching the path is found (lines 377-380)
          if is_exposed cc cp then
            (secTrace cc ++ [.addMethod cc cp rest], .ok (add_method st (cc, cp) rest))
          else
            -- another controller is found (lines 382-385); a present
            -- non-method attribute is exactly a sub-object
            match subLookup cc cp with
            | some sub => withPre (secTrace cc) (run f (.dispCtrl self cp sub st rest))
            | none => withPre (secTrace cc) (run f (.fbRun self st (cp :: rest)))
  | f+1, .dispCtrl self current_path c st remainder =>
    -- lines 302-329; the deprecated isclass branch (instantiation of a
    -- class controller) is not modelled, controllers are objects
    if c.hasDispatchFlag then
      if secDenies c then (secTrace c, .securityRejected)
      else
        withPre (secTrace c)
          (run f (.disp c { add_controller st current_path c with dispatcher := some c } remainder))
    else run f (.disp self (add_controller st current_path c) remainder)
  | f+1, .fbRun self st remainder =>
    -- lines 331-355: orig_url_path = state.url_path; when the remainder is
    -- nonempty, state.url_path is replaced by a fresh slice
    -- url_path[:-len(remainder)]; when it is empty, state.url_path stays
    -- aliased to orig_url_path (origPath = none records the aliasing)
    let origPath : Option (List String) := if remainder.isEmpty then none else some st.url_path
    let st1 := if remainder.isEmpty then st
               else { st with url_path := st.url_path.take (st.url_path.length - remainder.length) }
    let wtr : Trace := [.fbWalk (st1.controller_path.map (fun p => p.2)) remainder]
    match fallbackWalk origPath st1.controller_path.length st1 remainder with
    | .raiseNF => (wtr, .notFound)
    | .stepErr => (wtr, .err)
    | .found c st2 rem2 =>
      -- lines 342-345: state.add_method(controller.default, remainder);
      -- state.dispatcher = self; return state
      (wtr ++ [.addMethod c "default" rem2],
       .ok { add_method st2 (c, "default") rem2 with dispatcher := some self })
    | .doLookup owner args c2 st2 rem2 =>
      -- lines 346-349: controller, remainder = controller.lookup(*remainder);
      -- state.url_path = orig_url_path; restart via _dispatch_controller
      withPre (wtr ++ [.lookupCall owner args]) (run f (.dispCtrl self "lookup" c2 st2 rem2))

/-- The state built by `Dispatcher._get_dispatchable` (lines 175-178):
`DispatchState(url_path, params)`, then `add_controller('/', self)` and
`dispatcher = self`, before `state.controller._dispatch(state, url_path)`. -/
def initState (path : List String) (params : List (String × String)) (root : Controller) : DState :=
  { url_path := path, params := params, controller_path := odictSet [] "/" root,
    routing_args := [], method := none, remainder := none, dispatcher := some root }

/-- A whole dispatch as started by `_get_dispatchable` on an already
extension-stripped path. -/
def dispatchRoot (root : Controller) (path : List String) (fuel : Nat) : Res :=
  run fuel (.disp root (initState path [] root) path)

/-- The resolved handler of a dispatch result, when it resolved. -/
def resultMethod : Res → Option (Controller × String)
  | (_, .ok st) => st.method
  | _ => none

/-- The remainder handed to the resolved handler, when it resolved. -/
def resultRemainder : Res → Option (List String)
  | (_, .ok st) => st.remainder
  | _ => none

/-! ### Routing arguments: `DispatchState.add_routing_args` (lines 54-63) -/

def raSet (ra : List (String × RVal)) (k : String) (v : RVal) : List (String × RVal) :=
  if (ra.find? (fun p => p.1 == k)).isSome then
    ra.map (fun p => if p.1 == k then (k, v) else p)
  else ra ++ [(k, v)]

def raGet (ra : List (String × RVal)) (k : String) : Option RVal :=
  (ra.find? (fun p => p.1 == k)).map (fun p => p.2)

/-- The `for i, arg in enumerate(fixed_args)` loop of `add_routing_args`
(lines 56-60): binds `arg ↦ remainder[i]` while `i < len(remainder)`,
breaking at the first index past the remainder; returns the loop variable
`i` as Python leaves it (its last assigned value: `0` when `fixed_args` is
empty, the break index on break, `len(fixed_args) - 1` on natural end)
together with the updated mapping. -/
def araLoop (remainder : List String) : List String → Nat → List (String × RVal) →
    Nat × List (String × RVal)
  | [], i, ra => (i, ra)
  | arg :: rest, i, ra =>
    if remainder.length ≤ i then (i, ra)
    else
      let ra1 := raSet ra arg (RVal.str (remainder.getD i ""))
      match rest with
      | [] => (i, ra1)
      | _ :: _ => araLoop remainder rest (i+1) ra1

/-- `DispatchState.add_routing_args` (lines 54-63): after the binding loop
the code slices `remainder = remainder[i:]` at the final loop index and, if
`var_args` holds and that slice is nonempty, stores it under
`current_path`. -/
def add_routing_args (ra : List (String × RVal)) (current_path : String)
    (remainder fixed_args : List String) (var_args : Bool) : List (String × RVal) :=
  let p := araLoop remainder fixed_args 0 ra
  let rem2 := remainder.drop p.1
  if var_args && !rem2.isEmpty then raSet p.2 current_path (RVal.strs rem2) else p.2

/-! ### Argument binding (`Dispatcher._get_params_with_argspec`,
`Dispatcher._remove_argspec_params_from_params`, lines 94-144)

Python dicts are mutable objects passed by reference; to state the
frame claim that the caller's mapping is never mutated, dicts live in an
explicit heap of association lists (keys unique) addressed by allocation
index, `dict.copy()` allocates a fresh cell, and every `del`/store of the
source is a write to the cell the local variable points at. -/

abbrev PDict := List (String × String)

def pdictGet (d : PDict) (k : String) : Option String :=
  (d.find? (fun p => p.1 == k)).map (fun p => p.2)

def pdictDel (d : PDict) (k : String) : PDict :=
  d.filter (fun p => p.1 ≠ k)

def pdictSet (d : PDict) (k v : String) : PDict :=
  if (d.find? (fun p => p.1 == k)).isSome then
    d.map (fun p => if p.1 == k then (k, v) else p)
  else d ++ [(k, v)]

structure Heap where
  dicts : List PDict

def Heap.get (h : Heap) (r : Nat) : PDict := (h.dicts.get? r).getD []

def Heap.setD (h : Heap) (r : Nat) (d : PDict) : Heap := ⟨h.dicts.set r d⟩

def Heap.alloc (h : Heap) (d : PDict) : Heap × Nat := (⟨h.dicts ++ [d]⟩, h.dicts.length)

/-- The binding loop of `_get_params_with_argspec` (lines 99-102):
`params[var] = remainder[i]` for each declared positional name while the
remainder lasts. -/
def setParamsLoop (remainder : List String) : List String → Nat → PDict → PDict
  | [], _, d => d
  | var :: rest, i, d =>
    if remainder.length ≤ i then d
    else setParamsLoop remainder rest (i+1) (pdictSet d var (remainder.getD i ""))

/-- `Dispatcher._get_params_with_argspec` (lines 94-103).  `args` is
`argspec[0]` (declared positional names, receiver first); the memoized
`getargspec` result is passed in as data.  The first source line is
`params = params.copy()`, so all writes land on the fresh cell.  (The
source guard `argvars and enumerate(remainder)` reduces to `argvars` being
nonempty: `enumerate(...)` is always truthy in Python.) -/
def get_params_with_argspec (args : List String) (h0 : Heap) (params : Nat)
    (remainder : List String) : Heap × Nat :=
  let hp := h0.alloc (h0.get params)
  let h := hp.1
  let p2 := hp.2
  let argvars := args.drop 1
  if argvars.isEmpty then (h, p2)
  else (h.setD p2 (setParamsLoop remainder argvars 0 (h.get p2)), p2)

/-- The required-variables loop of `_remove_argspec_params_from_params`
(lines 135-137): `remainder[i] = params[var]; del params[var]`.  A missing
key raises `KeyError` before any assignment of that iteration; an index
past the remainder raises `IndexError` after the lookup but before the
deletion.  `none` is a raised exception (with the heap as mutated so
far). -/
def reqLoop (p2 : Nat) : List String → Nat → Heap → List String →
    Heap × Option (List String)
  | [], _, h, remainder => (h, some remainder)
  | var :: rest, i, h, remainder =>
    match pdictGet (h.get p2) var with
    | none => (h, none)
    | some v =>
      if i < remainder.length then
        reqLoop p2 rest (i+1) (h.setD p2 (pdictDel (h.get p2) var)) (remainder.set i v)
      else (h, none)

/-- The optional-variables loop of `_remove_argspec_params_from_params`
(lines 140-142): `if var in params: del params[var]`. -/
def optLoop (p2 : Nat) : List String → Heap → Heap
  | [], h => h
  | var :: rest, h =>
    if (pdictGet (h.get p2) var).isSome then optLoop p2 rest (h.setD p2 (pdictDel (h.get p2) var))
    else optLoop p2 rest h

/-- `Dispatcher._remove_argspec_params_from_params` (lines 105-144).
`args` is `argspec[0]`, `defaults` is `argspec[3]` with Python's
`None`-to-`[]` normalization (lines 120-122) already immaterial (an empty
list behaves identically).  Note the source's split (lines 126-128):
`required_vars = argvars[:len(argvals)-1]` and
`optional_vars = argvars[len(argvals)-1:]` whenever there is at least one
declared default.  The early return (lines 116-117) hands back the
caller's own dict unchanged; otherwise `params = params.copy()` (line 131)
precedes every mutation. -/
def remove_argspec_params_from_params (args defaults : List String) (h0 : Heap)
    (params : Nat) (remainder : List String) : Heap × Option (Nat × List String) :=
  let argvars := args.drop 1
  if argvars.isEmpty || remainder.isEmpty then (h0, some (params, remainder))
  else
    let argvals := defaults
    let required_vars := if argvals.isEmpty then argvars else argvars.take (argvals.length - 1)
    let optional_vars := if argvals.isEmpty then [] else argvars.drop (argvals.length - 1)
    let hp := h0.alloc (h0.get params)
    let h := hp.1
    let p2 := hp.2
    match reqLoop p2 required_vars 0 h remainder with
    | (h1, none) => (h1, none)
    | (h1, some remainder1) => (optLoop p2 optional_vars h1, some (p2, remainder1))

/-! ### Extension stripping (`Dispatcher._get_dispatchable`, lines 152-186)

`mimetypes.guess_type` is an external stdlib collaborator; the engine only
consumes it as a function from the last segment to an optional mime type,
so it is a parameter `guess`. -/

/-- `'.' in last_remainder` (membership test on the character list). -/
def strContainsDot (s : String) : Bool := s.toList.contains '.'

/-- Suffix test on character lists. -/
def strEndsWith (s suffix : String) : Bool :=
  suffix.toList == s.toList.drop (s.toList.length - suffix.toList.length)

/-- `last_remainder.rfind('.')`: index of the last dot. -/
def rfindDotIdx (s : String) : Nat :=
  s.toList.length - 1 - (s.toList.reverse.indexOf '.')

/-- The extension-stripping prefix of `_get_dispatchable` (lines 161-171):
when the last segment contains a dot and `guess` recognizes it, the
segment loses its suffix from the last dot on, and the mime type and the
extension are recorded; otherwise everything is left unchanged.  Returns
(new path, response_type, response_ext). -/
def stripExtension (guess : String → Option String) (url_path : List String) :
    List String × Option String × Option String :=
  match url_path.getLast? with
  | some last =>
    if strContainsDot last then
      match guess last with
      | some mime =>
        let spot := rfindDotIdx last
        let extension := String.mk (last.toList.drop spot)
        let newLast := String.mk (last.toList.take spot)
        (url_path.dropLast ++ [newLast], some mime, some extension)
      | none => (url_path, none, none)
    else (url_path, none, none)
  | none => (url_path, none, none)

/-- `Dispatcher._get_dispatchable` (lines 152-186) up to the dispatch call:
strips the extension once, builds the fresh `DispatchState` on the stripped
path and runs `state.controller._dispatch(state, url_path)` on it.  The
post-processing of the resolved state (pylons bookkeeping) is outside the
dispatch core.  Returns ((response_type, response_ext), dispatch result). -/
def get_dispatchable (guess : String → Option String) (root : Controller)
    (params : List (String × String)) (url_path : List String) (fuel : Nat) :
    (Option String × Option String) × Res :=
  let s := stripExtension guess url_path
  ((s.2.1, s.2.2), run fuel (.disp root (initState s.1 params root) s.1))

/-- Modelled from the spec: the recognized content-type extensions of the
external `mimetypes` collaborator; the spec names `.json` mapping to
`application/json` "or equivalent", plus the usual web types. -/
def guessTypeModel (s : String) : Option String :=
  if strEndsWith s ".json" then some "application/json"
  else if strEndsWith s ".html" then some "text/html"
  else if strEndsWith s ".xml" then some "text/xml"
  else if strEndsWith s ".txt" then some "text/plain"
  else none

/-! ### Trace observations -/

def isAddMethod : Ev → Bool
  | .addMethod _ _ _ => true
  | _ => false

/-- Every event except possibly the final one is something other than an
`add_method` call: the resolved handler is recorded at most once, and only
as the last action. -/
def noAddExceptLast (tr : Trace) : Bool :=
  tr.dropLast.all (fun e => !isAddMethod e)

/-- The trace ends in an `add_method` call. -/
def endsAdd (tr : Trace) : Bool :=
  match tr.getLast? with
  | some e => isAddMethod e
  | none => false

/-- Whenever a dispatch returns a state, its trace ends with the
`add_method` call and the state carries a resolved method. -/
def okBundle : Res → Bool
  | (tr, .ok st) => endsAdd tr && st.method.isSome
  | _ => true

def isNF : Outcome → Bool
  | .notFound => true
  | _ => false

/-- The controller exposes neither `default` nor `lookup`. -/
def lacksBoth (c : Controller) : Bool :=
  !is_exposed c "default" && !is_exposed c "lookup"

/-- The trace ends with a fallback-walk entry whose whole
visited-controller stack exposes neither `default` nor `lookup`. -/
def endsLackingWalk (tr : Trace) : Bool :=
  match tr.getLast? with
  | some (.fbWalk stack _) => stack.all lacksBoth
  | _ => false

/-- The arguments of the lookup invocations of a trace, in order. -/
def lookupArgs (tr : Trace) : List (List String) :=
  tr.filterMap (fun e => match e with | .lookupCall _ a => some a | _ => none)

lemma getLast?_append_right {α : Type} (t tr : List α) (h : tr ≠ []) :
    (t ++ tr).getLast? = tr.getLast? :=
  List.getLast?_append_of_ne_nil t h

lemma endsLackingWalk_append (t tr : Trace) (h : endsLackingWalk t = false) :
    endsLackingWalk (t ++ tr) = endsLackingWalk tr := by
  cases tr with
  | nil => simpa [endsLackingWalk] using h
  | cons e tl =>
    unfold endsLackingWalk
    rw [getLast?_append_right t (e :: tl) (by simp)]

lemma endsAdd_append (t tr : Trace) (h : tr ≠ []) :
    endsAdd (t ++ tr) = endsAdd tr := by
  unfold endsAdd
  rw [getLast?_append_right t tr h]

lemma noAddExceptLast_append (t tr : Trace)
    (ht : t.all (fun e => !isAddMethod e) = true) (h : noAddExceptLast tr = true) :
    noAddExceptLast (t ++ tr) = true := by
  cases tr with
  | nil =>
    unfold noAddExceptLast
    simp only [List.append_nil]
    refine List.all_eq_true.mpr ?_
    intro x hx
    exact List.all_eq_true.mp ht x (List.dropLast_subset t hx)
  | cons e tl =>
    unfold noAddExceptLast
    rw [List.dropLast_append_cons]
    rw [List.all_append, ht]
    simpa [noAddExceptLast] using h

/-- The fallback walk raises `HTTPNotFound` exactly when every controller
on the visited stack it walks exposes neither `default` nor `lookup`; its
(unreachable) error outcome also certifies an exposing controller. -/
lemma fallbackWalk_spec (origPath : Option (List String)) :
    ∀ (k : Nat) (st : DState) (rem : List String), k = st.controller_path.length →
      ((fallbackWalk origPath k st rem = .raiseNF) ↔
        st.controller_path.all (fun p => lacksBoth p.2) = true) ∧
      (fallbackWalk origPath k st rem = .stepErr →
        st.controller_path.all (fun p => lacksBoth p.2) = false) := by
  intro k
  induction k with
  | zero =>
    intro st rem hk
    have hnil : st.controller_path = [] := List.length_eq_zero.mp hk.symm
    constructor
    · simp [fallbackWalk, hnil]
    · intro hcon
      simp [fallbackWalk] at hcon
  | succ k ih =>
    intro st rem hk
    have hne : st.controller_path ≠ [] := by
      intro hcon
      rw [hcon] at hk
      simp at hk
    have hkc : st.controller_path.getLast? = some (st.controller_path.getLast hne) :=
      List.getLast?_eq_getLast _ hne
    set kc := st.controller_path.getLast hne with hkcdef
    have hsplit : st.controller_path.all (fun p => lacksBoth p.2) =
        (st.controller_path.dropLast.all (fun p => lacksBoth p.2) && lacksBoth kc.2) := by
      conv_lhs => rw [← List.dropLast_append_getLast hne]
      simp [List.all_append]
    have hlen : st.controller_path.dropLast.length = k := by
      rw [List.length_dropLast, ← hk]
      omega
    cases hdef : is_exposed kc.2 "default" with
    | true =>
      have hw : fallbackWalk origPath (k+1) st rem = .found kc.2 st rem := by
        simp [fallbackWalk, hkc, hdef]
      rw [hw, hsplit]
      constructor
      · constructor
        · intro hcon
          simp at hcon
        · intro hall
          rw [lacksBoth] at hall
          simp [hdef] at hall
      · intro hcon
        simp at hcon
    | false =>
      cases hlk : is_exposed kc.2 "lookup" with
      | true =>
        have hnl : lacksBoth kc.2 = false := by
          simp [lacksBoth, hlk]
        cases hfn : kc.2.lookupFn with
        | some fn =>
          have hw : fallbackWalk origPath (k+1) st rem =
              .doLookup kc.2 rem (fn rem).1
                { st with url_path := origPath.getD st.url_path } (fn rem).2 := by
            simp [fallbackWalk, hkc, hdef, hlk, hfn]
          rw [hw, hsplit, hnl]
          constructor
          · constructor
            · intro hcon
              simp at hcon
            · intro hall
              simp at hall
          · intro hcon
            simp at hcon
        | none =>
          have hw : fallbackWalk origPath (k+1) st rem = .stepErr := by
            simp [fallbackWalk, hkc, hdef, hlk, hfn]
          rw [hw, hsplit, hnl]
          constructor
          · constructor
            · intro hcon
              simp at hcon
            · intro hall
              simp at hall
          · intro _
            simp
      | false =>
        have hlb : lacksBoth kc.2 = true := by
          simp [lacksBoth, hdef, hlk]
        cases hup : st.url_path.isEmpty with
        | true =>
          have hw : fallbackWalk origPath (k+1) st rem =
              fallbackWalk origPath k { st with controller_path := st.controller_path.dropLast } rem := by
            simp [fallbackWalk, hkc, hdef, hlk, hup]
          have hrec := ih { st with controller_path := st.controller_path.dropLast } rem (by simpa using hlen.symm)
          rw [hw, hsplit, hlb]
          simpa using hrec
        | false =>
          have hw : fallbackWalk origPath (k+1) st rem =
              fallbackWalk origPath k
                { st with controller_path := st.controller_path.dropLast,
                          url_path := st.url_path.dropLast }
                (st.url_path.getLastD "" :: rem) := by
            simp [fallbackWalk, hkc, hdef, hlk, hup]
          have hrec := ih
            { st with controller_path := st.controller_path.dropLast,
                      url_path := st.url_path.dropLast }
            (st.url_path.getLastD "" :: rem) (by simpa using hlen.symm)
          rw [hw, hsplit, hlb]
          simpa using hrec

lemma all_map_snd {α β : Type} (l : List (α × β)) (p : β → Bool) :
    (l.map (fun q => q.2)).all p = l.all (fun q => p q.2) := by
  induction l with
  | nil => rfl
  | cons x xs ih => simp [ih]

/-- The joint invariant of every engine result: `add_method` is recorded at
most once and only as the final action, a returned state carries a resolved
method and its trace ends on that `add_method`, and the outcome is
`HTTPNotFound` exactly when the trace ends on a fallback walk whose whole
stack lacks `default` and `lookup`. -/
def goodRes (r : Res) : Bool :=
  noAddExceptLast r.1 && okBundle r && (isNF r.2 == endsLackingWalk r.1)

lemma goodRes_intro (tr : Trace) (o : Outcome)
    (h1 : noAddExceptLast tr = true) (h2 : okBundle (tr, o) = true)
    (h3 : isNF o = endsLackingWalk tr) : goodRes (tr, o) = true := by
  simp [goodRes, h1, h2, h3]

lemma goodRes_withPre (t : Trace) (r : Res)
    (ht : t.all (fun e => !isAddMethod e) = true)
    (hlast : endsLackingWalk t = false)
    (h : goodRes r = true) : goodRes (withPre t r) = true := by
  obtain ⟨tr, o⟩ := r
  simp only [goodRes, Bool.and_eq_true, beq_iff_eq] at h
  obtain ⟨⟨h1, h2⟩, h3⟩ := h
  show goodRes (t ++ tr, o) = true
  refine goodRes_intro _ _ ?_ ?_ ?_
  · exact noAddExceptLast_append t tr ht h1
  · cases o with
    | ok st =>
      simp only [okBundle, Bool.and_eq_true] at h2 ⊢
      obtain ⟨h2a, h2b⟩ := h2
      refine ⟨?_, h2b⟩
      have htrne : tr ≠ [] := by
        intro hcon
        rw [hcon] at h2a
        simp [endsAdd] at h2a
      rw [endsAdd_append t tr htrne]
      exact h2a
    | notFound => simp [okBundle]
    | securityRejected => simp [okBundle]
    | outOfFuel => simp [okBundle]
    | err => simp [okBundle]
  · rw [endsLackingWalk_append t tr hlast]
    exact h3

lemma secTrace_noAdd (c : Controller) : (secTrace c).all (fun e => !isAddMethod e) = true := by
  unfold secTrace
  split <;> simp [isAddMethod]

lemma secTrace_elw (c : Controller) : endsLackingWalk (secTrace c) = false := by
  unfold secTrace
  split <;> simp [endsLackingWalk]

lemma goodRes_sec (c : Controller) : goodRes (secTrace c, .securityRejected) = true := by
  refine goodRes_intro _ _ ?_ (by simp [okBundle]) ?_
  · unfold noAddExceptLast secTrace
    split <;> simp [isAddMethod]
  · simp [isNF, secTrace_elw]

lemma goodRes_addSite (pre : Trace) (hpre : pre.all (fun e => !isAddMethod e) = true)
    (c : Controller) (n : String) (r : List String) (st : DState)
    (hm : st.method.isSome = true) :
    goodRes (pre ++ [.addMethod c n r], .ok st) = true := by
  refine goodRes_intro _ _ ?_ ?_ ?_
  · unfold noAddExceptLast
    rw [List.dropLast_concat]
    exact hpre
  · simp [okBundle, endsAdd, List.getLast?_concat, isAddMethod, hm]
  · simp [isNF, endsLackingWalk, List.getLast?_concat]

lemma goodRes_nfSite (stack : List Controller) (rem : List String)
    (h : stack.all lacksBoth = true) :
    goodRes ([.fbWalk stack rem], .notFound) = true := by
  refine goodRes_intro _ _ (by simp [noAddExceptLast]) (by simp [okBundle]) ?_
  simp [isNF, endsLackingWalk, h]

lemma goodRes_errWalk (stack : List Controller) (rem : List String)
    (h : stack.all lacksBoth = false) :
    goodRes ([.fbWalk stack rem], .err) = true := by
  refine goodRes_intro _ _ (by simp [noAddExceptLast]) (by simp [okBundle]) ?_
  simp [isNF, endsLackingWalk, h]

/-- Every engine run satisfies the joint invariant. -/
lemma run_good : ∀ (f : Nat) (call : Call), goodRes (run f call) = true := by
  intro f
  induction f with
  | zero => intro call; rfl
  | succ f ih =>
    intro call
    cases call with
    | disp self st rem =>
      simp only [run]
      split
      · rfl
      · split
        · apply goodRes_sec
        · split
          · split
            · apply goodRes_addSite _ (secTrace_noAdd _) _ _ _ _ (by simp [add_method])
            · exact goodRes_withPre _ _ (secTrace_noAdd _) (secTrace_elw _) (ih _)
          · split
            · apply goodRes_addSite _ (secTrace_noAdd _) _ _ _ _ (by simp [add_method])
            · split
              · exact goodRes_withPre _ _ (secTrace_noAdd _) (secTrace_elw _) (ih _)
              · exact goodRes_withPre _ _ (secTrace_noAdd _) (secTrace_elw _) (ih _)
    | dispCtrl self cp c st rem =>
      simp only [run]
      split
      · split
        · apply goodRes_sec
        · exact goodRes_withPre _ _ (secTrace_noAdd _) (secTrace_elw _) (ih _)
      · exact ih _
    | fbRun self st rem =>
      simp only [run]
      split
      · rename_i heq
        apply goodRes_nfSite
        have hspec := ((fallbackWalk_spec _ _ _ _ rfl).1).mp heq
        rw [all_map_snd]
        exact hspec
      · rename_i heq
        apply goodRes_errWalk
        have hspec := (fallbackWalk_spec _ _ _ _ rfl).2 heq
        rw [all_map_snd]
        exact hspec
      · rename_i c2 st2 rem2 heq
        apply goodRes_addSite _ (by simp [isAddMethod]) _ _ _ _ (by simp [add_method])
      · rename_i owner args c2 st2 rem2 heq
        apply goodRes_withPre _ _ (by simp [isAddMethod]) ?_ (ih _)
        simp [endsLackingWalk, List.getLast?_concat]

/-! ### Characterization of `add_routing_args` -/

/-- Folding the individual bindings `fixed name ↦ remainder entry` over the
zipped lists: the binding part of `add_routing_args` in closed form. -/
def bindFixed : List (String × RVal) → List (String × String) → List (String × RVal)
  | ra, [] => ra
  | ra, (a, v) :: rest => bindFixed (raSet ra a (RVal.str v)) rest

/-- The value of the Python loop variable `i` after the binding loop of
`add_routing_args`, started at `i`. -/
def araFinalI (remainder fixed_args : List String) (i : Nat) : Nat :=
  if fixed_args.isEmpty then i
  else if remainder.length ≤ i then i
  else min (i + (fixed_args.length - 1)) remainder.length

lemma araLoop_eq (rem : List String) :
    ∀ (fixed : List String) (i : Nat) (ra : List (String × RVal)),
      araLoop rem fixed i ra = (araFinalI rem fixed i, bindFixed ra (fixed.zip (rem.drop i))) := by
  intro fixed
  induction fixed with
  | nil =>
    intro i ra
    simp [araLoop, araFinalI, bindFixed]
  | cons a rest ih =>
    intro i ra
    by_cases hlen : rem.length ≤ i
    · have hdrop : rem.drop i = [] := List.drop_eq_nil_of_le hlen
      have h1 : araLoop rem (a :: rest) i ra = (i, ra) := by
        unfold araLoop
        rw [if_pos hlen]
      have h2 : araFinalI rem (a :: rest) i = i := by
        unfold araFinalI
        simp only [List.isEmpty_cons, Bool.false_eq_true, if_false]
        rw [if_pos hlen]
      rw [h1, h2, hdrop]
      simp [bindFixed]
    · push_neg at hlen
      have hdrop : rem.drop i = rem.get ⟨i, hlen⟩ :: rem.drop (i+1) :=
        List.drop_eq_getElem_cons hlen
      have hgetD : rem.getD i "" = rem.get ⟨i, hlen⟩ := by
        simp [List.getD_eq_getElem?_getD, List.getElem?_eq_getElem hlen]
      cases rest with
      | nil =>
        have h1 : araLoop rem [a] i ra = (i, raSet ra a (RVal.str (rem.getD i ""))) := by
          unfold araLoop
          rw [if_neg (Nat.not_le.mpr hlen)]
        have h2 : araFinalI rem [a] i = i := by
          unfold araFinalI
          simp only [List.isEmpty_cons, Bool.false_eq_true, if_false, List.length_singleton]
          rw [if_neg (Nat.not_le.mpr hlen)]
          omega
        have h3 : bindFixed ra ([a].zip (rem.drop i)) = raSet ra a (RVal.str (rem.getD i "")) := by
          rw [hdrop]
          simp [bindFixed, hgetD, List.getElem?_eq_getElem hlen]
        rw [h1, h2, h3]
      | cons b rest2 =>
        have h1 : araLoop rem (a :: b :: rest2) i ra =
            araLoop rem (b :: rest2) (i+1) (raSet ra a (RVal.str (rem.getD i ""))) := by
          conv_lhs => rw [araLoop]
          rw [if_neg (Nat.not_le.mpr hlen)]
        have h4 : araFinalI rem (b :: rest2) (i+1) = araFinalI rem (a :: b :: rest2) i := by
          unfold araFinalI
          simp only [List.isEmpty_cons, Bool.false_eq_true, if_false, List.length_cons]
          split_ifs <;> omega
        rw [h1, ih (i+1) (raSet ra a (RVal.str (rem.getD i ""))), hdrop]
        simp only [List.zip_cons_cons, bindFixed, hgetD, h4, List.zip]

/-! ### Heap frame lemmas for the argument binder -/

lemma heapGet_setD_ne (h : Heap) (r q : Nat) (d : PDict) (hne : q ≠ r) :
    (h.setD r d).get q = h.get q := by
  unfold Heap.setD Heap.get
  simp [List.getElem?_set_ne (by omega : r ≠ q)]

lemma heapGet_alloc_lt (h : Heap) (d : PDict) (q : Nat) (hlt : q < h.dicts.length) :
    (h.alloc d).1.get q = h.get q := by
  unfold Heap.alloc Heap.get
  simp [List.getElem?_append_left hlt]

lemma heap_alloc_snd (h : Heap) (d : PDict) : (h.alloc d).2 = h.dicts.length := rfl

lemma reqLoop_get_ne (p2 : Nat) (q : Nat) (hne : q ≠ p2) :
    ∀ (vars : List String) (i : Nat) (h : Heap) (rem : List String),
      ((reqLoop p2 vars i h rem).1).get q = h.get q := by
  intro vars
  induction vars with
  | nil => intro i h rem; rfl
  | cons var rest ih =>
    intro i h rem
    unfold reqLoop
    cases hget : pdictGet (h.get p2) var with
    | none => rfl
    | some v =>
      simp only
      split
      · rw [ih]
        exact heapGet_setD_ne h p2 q _ hne
      · rfl

lemma optLoop_get_ne (p2 : Nat) (q : Nat) (hne : q ≠ p2) :
    ∀ (vars : List String) (h : Heap), (optLoop p2 vars h).get q = h.get q := by
  intro vars
  induction vars with
  | nil => intro h; rfl
  | cons var rest ih =>
    intro h
    unfold optLoop
    split
    · rw [ih]
      exact heapGet_setD_ne h p2 q _ hne
    · exact ih h

/-! ### Helper lemmas for the lookup restart -/

lemma odictSet_fresh (m : List (String × Controller)) (k : String) (v : Controller)
    (h : m.all (fun p => !(p.1 == k)) = true) : odictSet m k v = m ++ [(k, v)] := by
  unfold odictSet
  have hnone : m.find? (fun p => p.1 == k) = none := by
    apply List.find?_eq_none.mpr
    intro x hx
    have := List.all_eq_true.mp h x hx
    simpa using this
  simp [hnone]

lemma resultMethod_withPre (t : Trace) (r : Res) :
    resultMethod (withPre t r) = resultMethod r := by
  obtain ⟨tr, o⟩ := r
  cases o <;> rfl

lemma resultRemainder_withPre (t : Trace) (r : Res) :
    resultRemainder (withPre t r) = resultRemainder r := by
  obtain ⟨tr, o⟩ := r
  cases o <;> rfl

/-- One `_dispatch` step on a state whose current controller exposes the
first remaining segment as a method: the engine resolves to that very
attribute with the rest of the segments as remainder (lines 375-380). -/
lemma disp_exposed_step (f : Nat) (self : Controller) (st : DState)
    (kc : String × Controller) (n : String) (rest : List String)
    (hlast : st.controller_path.getLast? = some kc)
    (hsd : secDenies kc.2 = false)
    (hexp : is_exposed kc.2 n = true) :
    run (f+1) (.disp self st (n :: rest)) =
      (secTrace kc.2 ++ [.addMethod kc.2 n rest], .ok (add_method st (kc.2, n) rest)) := by
  simp only [run]
  rw [hlast]
  simp [hsd, hexp]

/-! ### Claim C1: the A → B → C `default` backtracking example -/

/-- The leaf controller C of the C1 example: no attributes at all. -/
def CtrlC : Controller := .mk [] none none true

/-- The middle controller B: sub-controller `c` and a `default` method. -/
def CtrlB : Controller := .mk [("c", some CtrlC), ("default", none)] none none true

/-- The controller A: sub-controller `b`. -/
def CtrlA : Controller := .mk [("b", some CtrlB)] none none true

/-- The root of the C1 example: sub-controller `a`. -/
def RootAB : Controller := .mk [("a", some CtrlA)] none none true

/-- C1: dispatching the path segments `['a','b','c','extra']` against the
chain A→B→C, where C matches nothing for `extra` and has no
index/default/lookup but B exposes `default`, resolves to B's `default`
method with remainder `['c','extra']`: the fallback search walked the
visited stack in reverse and the segments popped off during backtracking
(`c`, then nothing more was needed), in original order followed by the
pending segments, became the resolved handler's remainder. -/
theorem c1_chain_default_backtrack :
    resultMethod (dispatchRoot RootAB ["a", "b", "c", "extra"] 20) = some (CtrlB, "default") ∧
    resultRemainder (dispatchRoot RootAB ["a", "b", "c", "extra"] 20) = some ["c", "extra"] :=
  ⟨rfl, rfl⟩

/-! ### Claim C2: NotFound iff the final fallback stack lacks default/lookup -/

lemma isNF_true_iff (o : Outcome) : isNF o = true ↔ o = .notFound := by
  cases o <;> simp [isNF]

/-- C2: a dispatch terminates in `HTTPNotFound` exactly when its trace ends
on a fallback-walk entry whose recorded visited-controller stack (the final
fallback stack, walked from most recently visited back to the root) has no
controller exposing `default` or `lookup`; whenever some controller on that
final stack exposes one of the two, the outcome is not NotFound. -/
theorem c2_notfound_iff_final_stack_exhausted (f : Nat) (root : Controller) (path : List String) :
    (dispatchRoot root path f).2 = Outcome.notFound ↔
      endsLackingWalk (dispatchRoot root path f).1 = true := by
  have hg := run_good f (.disp root (initState path [] root) path)
  unfold dispatchRoot
  simp only [goodRes, Bool.and_eq_true, beq_iff_eq] at hg
  obtain ⟨-, h3⟩ := hg
  rw [← isNF_true_iff, h3]

/-! ### Claim C7: the resolved handler is set at most once, as the final act -/

/-- C7: within a single dispatch, `add_method` is recorded at most once —
every trace event before the last is not an `add_method` — and when the
dispatch returns a state, its final event is that single `add_method` and
the returned state carries the resolved method; no traversal action
(security check, lookup call, fallback walk) follows the `add_method`. -/
theorem c7_method_set_at_most_once (f : Nat) (root : Controller) (path : List String) :
    noAddExceptLast (dispatchRoot root path f).1 = true ∧
    okBundle (dispatchRoot root path f) = true := by
  have hg := run_good f (.disp root (initState path [] root) path)
  unfold dispatchRoot
  simp only [goodRes, Bool.and_eq_true] at hg
  exact ⟨hg.1.1, hg.1.2⟩

/-! ### Claim C6: security short-circuit at the root -/

/-- C6: when the root controller's `_check_security` hook denies, the whole
dispatch is exactly one security check followed by the propagated
rejection: the trace shows no other security check, no lookup invocation
and no `add_method`, so no handler of any sub-controller is ever resolved
and no sub-controller hook ever runs — for every controller graph and
every path. -/
theorem c6_security_short_circuit (f : Nat) (root : Controller) (path : List String)
    (h : root.security = some true) :
    dispatchRoot root path (f+1) = ([Ev.secCheck root], Outcome.securityRejected) := by
  have hlast : (initState path [] root).controller_path.getLast? = some ("/", root) := rfl
  have hsd : secDenies root = true := by
    simp [secDenies, h]
  have hsec : secTrace root = [Ev.secCheck root] := by
    simp [secTrace, h]
  unfold dispatchRoot
  simp only [run]
  rw [hlast]
  simp [hsd, hsec]

/-- A root whose `_check_security` denies. -/
def DenyRoot : Controller := .mk [("a", none)] (some true) none true

/-- Witness for C6 at a concrete denying root and path. -/
theorem c6_security_short_circuit_witness :
    dispatchRoot DenyRoot ["a", "b"] 9 = ([Ev.secCheck DenyRoot], Outcome.securityRejected) :=
  c6_security_short_circuit 8 DenyRoot ["a", "b"] rfl

/-! ### Claim C10: the exposure test accepts any method attribute -/

/-- C10: `_is_exposed` consults no exposure decoration: it is exactly
`hasattr` plus `ismethod`; consequently, whenever the next URL segment
names any method attribute of the current controller — including
underscore-prefixed hooks such as `_check_security`, `lookup` or
`_dispatch` — dispatch resolves to that attribute as the handler, with the
remaining segments as remainder. -/
theorem c10_exposure_is_any_method :
    (∀ (c : Controller) (n : String), is_exposed c n = (hasattrB c n && ismethodOf c n)) ∧
    (∀ (f : Nat) (self : Controller) (st : DState) (k : String) (c : Controller)
        (n : String) (rest : List String),
      st.controller_path.getLast? = some (k, c) →
      secDenies c = false →
      hasattrB c n = true →
      ismethodOf c n = true →
      resultMethod (run (f+1) (.disp self st (n :: rest))) = some (c, n) ∧
      resultRemainder (run (f+1) (.disp self st (n :: rest))) = some rest) := by
  constructor
  · intro c n
    rfl
  · intro f self st k c n rest hlast hsd hha hm
    have hexp : is_exposed c n = true := by
      simp [is_exposed, hha, hm]
    have hstep := disp_exposed_step f self st (k, c) n rest hlast hsd hexp
    rw [hstep]
    constructor
    · simp [resultMethod, add_method]
    · simp [resultRemainder, add_method]

/-- A controller whose only special feature is a non-denying
`_check_security` hook. -/
def SecOnly : Controller := .mk [] (some false) none true

/-- Witness for C10: dispatching the segment `_check_security` on a
controller carrying that hook resolves to the hook itself as handler. -/
theorem c10_exposure_is_any_method_witness :
    resultMethod (run 5 (.disp SecOnly (initState ["_check_security"] [] SecOnly)
      ["_check_security"])) = some (SecOnly, "_check_security") ∧
    resultRemainder (run 5 (.disp SecOnly (initState ["_check_security"] [] SecOnly)
      ["_check_security"])) = some [] :=
  c10_exposure_is_any_method.2 4 SecOnly (initState ["_check_security"] [] SecOnly)
    "/" SecOnly "_check_security" [] rfl rfl rfl rfl

/-! ### Claim C3: the lookup restart -/

/-- An empty leaf controller for the C3 counterexample. -/
def LeafS : Controller := .mk [] none none true

/-- The controller returned by the lookup: sub-controller `y` and a
`default` method. -/
def CtrlX : Controller := .mk [("y", some LeafS), ("default", none)] none none true

/-- A controller exposing only `lookup`, which returns `(CtrlX, ['y'])`. -/
def CtrlBLk : Controller := .mk [] none (some (fun _ => (CtrlX, ["y"]))) true

/-- The root of the C3 counterexample: sub-controller `b`. -/
def RootLk : Controller := .mk [("b", some CtrlBLk)] none none true

/-- C3 counterexample: dispatching `['b','x']` from `RootLk` invokes
CtrlBLk's `lookup` with `['x']`, which returns `(CtrlX, ['y'])`; the
continuation resolves to CtrlX's `default` with remainder `['x']`, whereas
a dispatch started fresh at CtrlX with `['y']` resolves to the same
handler but with remainder `['y']` — the two runs do not agree, refuting
the claimed equivalence (the restart keeps the original `url_path` and the
old visited stack, so a post-restart fallback reconstructs segments of the
original URL instead of the lookup remainder). -/
theorem c3_lookup_restart_counterexample :
    (∃ fn, CtrlBLk.lookupFn = some fn ∧ fn ["x"] = (CtrlX, ["y"])) ∧
    lookupArgs (dispatchRoot RootLk ["b", "x"] 20).1 = [["x"]] ∧
    resultMethod (dispatchRoot RootLk ["b", "x"] 20) = some (CtrlX, "default") ∧
    resultRemainder (dispatchRoot RootLk ["b", "x"] 20) = some ["x"] ∧
    resultMethod (dispatchRoot CtrlX ["y"] 20) = some (CtrlX, "default") ∧
    resultRemainder (dispatchRoot CtrlX ["y"] 20) = some ["y"] ∧
    (["x"] : List String) ≠ ["y"] :=
  ⟨⟨fun _ => (CtrlX, ["y"]), rfl, rfl⟩, rfl, rfl, rfl, rfl, rfl, by decide⟩

/-- C3 amended: the lookup restart enters the returned controller through
the standard controller-entry path, so when the restarted dispatch
resolves in one step — the first entry of the lookup's remainder names an
exposed method of the returned controller — the continuation and a fresh
dispatch at that controller with that remainder agree on both the resolved
handler and its remainder.  (Beyond this, once the restarted dispatch
re-enters the fallback search, the retained visited stack and the restored
original `url_path` make the two runs diverge, as the counterexample
shows.) -/
theorem c3_lookup_restart_amended (f : Nat) (self : Controller) (st : DState)
    (X : Controller) (m : String) (rest : List String)
    (hnd : st.controller_path.all (fun p => !(p.1 == "lookup")) = true)
    (hdf : X.hasDispatchFlag = true)
    (hsd : secDenies X = false)
    (hexp : is_exposed X m = true) :
    resultMethod (run (f+2) (.dispCtrl self "lookup" X st (m :: rest))) = some (X, m) ∧
    resultRemainder (run (f+2) (.dispCtrl self "lookup" X st (m :: rest))) = some rest ∧
    resultMethod (dispatchRoot X (m :: rest) (f+1)) = some (X, m) ∧
    resultRemainder (dispatchRoot X (m :: rest) (f+1)) = some rest := by
  have hpush : odictSet st.controller_path "lookup" X = st.controller_path ++ [("lookup", X)] :=
    odictSet_fresh _ _ _ hnd
  have hlast1 : ({ add_controller st "lookup" X with dispatcher := some X } : DState).controller_path.getLast? =
      some ("lookup", X) := by
    simp [add_controller, hpush]
  have hcont : run (f+1+1) (.dispCtrl self "lookup" X st (m :: rest)) =
      withPre (secTrace X)
        (run (f+1) (.disp X { add_controller st "lookup" X with dispatcher := some X } (m :: rest))) := by
    simp only [run]
    rw [hdf]
    simp [hsd]
  have hstep := disp_exposed_step f X
    { add_controller st "lookup" X with dispatcher := some X } ("lookup", X) m rest hlast1 hsd hexp
  have hlast0 : (initState (m :: rest) [] X).controller_path.getLast? = some ("/", X) := rfl
  have hstep0 := disp_exposed_step f X (initState (m :: rest) [] X) ("/", X) m rest hlast0 hsd hexp
  refine ⟨?_, ?_, ?_, ?_⟩
  · rw [hcont, resultMethod_withPre, hstep]
    simp [resultMethod, add_method]
  · rw [hcont, resultRemainder_withPre, hstep]
    simp [resultRemainder, add_method]
  · unfold dispatchRoot
    rw [hstep0]
    simp [resultMethod, add_method]
  · unfold dispatchRoot
    rw [hstep0]
    simp [resultRemainder, add_method]

/-- A controller exposing the method `m`, for the C3 amended witness. -/
def XOneStep : Controller := .mk [("m", none)] none none true

/-- Witness for the amended C3 at a concrete graph. -/
theorem c3_lookup_restart_amended_witness :
    resultMethod (run 7 (.dispCtrl XOneStep "lookup" XOneStep (initState [] [] XOneStep)
      ["m", "q"])) = some (XOneStep, "m") ∧
    resultRemainder (run 7 (.dispCtrl XOneStep "lookup" XOneStep (initState [] [] XOneStep)
      ["m", "q"])) = some ["q"] ∧
    resultMethod (dispatchRoot XOneStep ["m", "q"] 6) = some (XOneStep, "m") ∧
    resultRemainder (dispatchRoot XOneStep ["m", "q"] 6) = some ["q"] :=
  c3_lookup_restart_amended 5 XOneStep (initState [] [] XOneStep) XOneStep "m" ["q"]
    rfl rfl rfl rfl

/-! ### Claim C4: required/optional split of the argument binder -/

/-- C4: evaluating `_remove_argspec_params_from_params` on the signature
`(self, a, b=d)` — declared names `['self','a','b']`, one default — with
the caller's mapping `{'a': 'x'}` (heap cell 0) and remainder `['r']`.
The declared-default semantics make `a` required, so the claimed behaviour
is `remainder[0] = 'x'`; the code instead computes
`required_vars = argvars[:len(argvals)-1] = []` and
`optional_vars = argvars[len(argvals)-1:] = ['a','b']`, deletes `'a'`
from the copied mapping as optional, and returns the remainder `['r']`
unchanged: nothing is ever moved into a positional slot. -/
theorem c4_required_vars_misclassified :
    remove_argspec_params_from_params ["self", "a", "b"] ["d"] ⟨[[("a", "x")]]⟩ 0 ["r"] =
      (⟨[[("a", "x")], []]⟩, some (1, ["r"])) ∧
    (["r"] : List String) ≠ ["x"] :=
  ⟨rfl, by decide⟩

/-! ### Claim C5: `add_routing_args` -/

/-- The slice index the source uses for the leftover: the final value of
the Python loop variable `i`, i.e. `0` for no fixed names and otherwise
`min(len(fixed_args) - 1, len(remainder))`. -/
def istar (fixed_args remainder : List String) : Nat :=
  if fixed_args.isEmpty then 0 else min (fixed_args.length - 1) remainder.length

/-- C5 counterexample: with `fixed_args = ['a']`, `remainder = ['1','2']`
and `var_args` set, the code binds `a ↦ '1'` and then stores the slice
`remainder[0:] = ['1','2']` — which still contains the entry `'1'` already
bound to the fixed name `a` — under the `current_path` key, not the
claimed leftover `['2']` beyond the fixed names. -/
theorem c5_variadic_leftover_counterexample :
    add_routing_args [] "p" ["1", "2"] ["a"] true =
      [("a", RVal.str "1"), ("p", RVal.strs ["1", "2"])] ∧
    ¬ raGet (add_routing_args [] "p" ["1", "2"] ["a"] true) "p" = some (RVal.strs ["2"]) :=
  ⟨rfl, by decide⟩

lemma araFinalI_zero (rem fixed : List String) : araFinalI rem fixed 0 = istar fixed rem := by
  unfold araFinalI istar
  split_ifs <;> omega

/-- C5 amended: `add_routing_args` binds the first
`min(len(fixed_args), len(remainder))` remainder entries to the fixed
names in order (the fold of the single updates over the zipped lists), and
when `var_args` holds it stores under `current_path` the remainder slice
from index `istar` on — `istar = 0` when there are no fixed names and
`min(len(fixed_args) - 1, len(remainder))` otherwise, so for
`0 < len(fixed_args) ≤ len(remainder)` the stored slice still includes the
entry bound to the last fixed name — provided that slice is nonempty;
otherwise the mapping is left as the bindings alone. -/
theorem c5_variadic_leftover_amended (ra : List (String × RVal)) (cp : String)
    (rem fixed : List String) (va : Bool) :
    add_routing_args ra cp rem fixed va =
      (if va && !((rem.drop (istar fixed rem)).isEmpty)
       then raSet (bindFixed ra (fixed.zip rem)) cp (RVal.strs (rem.drop (istar fixed rem)))
       else bindFixed ra (fixed.zip rem)) := by
  unfold add_routing_args
  rw [araLoop_eq rem fixed 0 ra]
  simp only [araFinalI_zero, List.drop_zero]

/-! ### Claim C8: extension stripping happens once, before dispatch -/

/-- C8: the boundary strips a recognized content-type extension from the
last path segment exactly once, before any dispatch rule runs: (1) on
`['report.json']` the recognized extension yields the stripped segment
`report`, response type `application/json` and extension `.json`;
(2) a last segment without a dot, or whose name the collaborator does not
recognize, is left unchanged and nothing is recorded; (3) stripping never
touches any segment but the last; (4) `_get_dispatchable` hands the
dispatch engine exactly the once-stripped path (both as the fresh state's
`url_path` and as the initial remainder) and returns the recorded response
type and extension — the engine itself never strips. -/
theorem c8_extension_stripped_once_before_dispatch :
    stripExtension guessTypeModel ["report.json"] =
      (["report"], some "application/json", some ".json") ∧
    (∀ (guess : String → Option String) (path : List String) (last : String),
      path.getLast? = some last →
      (strContainsDot last = false ∨ guess last = none) →
      stripExtension guess path = (path, none, none)) ∧
    (∀ (guess : String → Option String) (path : List String),
      ((stripExtension guess path).1).dropLast = path.dropLast) ∧
    (∀ (guess : String → Option String) (root : Controller) (params : List (String × String))
        (path : List String) (fuel : Nat),
      (get_dispatchable guess root params path fuel).2 =
        run fuel (.disp root (initState ((stripExtension guess path).1) params root)
          ((stripExtension guess path).1)) ∧
      (get_dispatchable guess root params path fuel).1 =
        ((stripExtension guess path).2.1, (stripExtension guess path).2.2)) := by
  refine ⟨by decide, ?_, ?_, ?_⟩
  · intro guess path last hlast hno
    unfold stripExtension
    rw [hlast]
    cases hno with
    | inl h => simp [h]
    | inr h =>
      cases hdot : strContainsDot last with
      | true => simp [hdot, h]
      | false => simp [hdot]
  · intro guess path
    unfold stripExtension
    cases hlast : path.getLast? with
    | none => rfl
    | some last =>
      cases hdot : strContainsDot last with
      | true =>
        cases hg : guess last with
        | some mime => simp [hdot, hg]
        | none => simp [hdot, hg]
      | false => simp [hdot]
  · intro guess root params path fuel
    exact ⟨rfl, rfl⟩

/-- Witness for C8 on a segment without a recognized extension. -/
theorem c8_extension_stripped_once_before_dispatch_witness :
    stripExtension guessTypeModel ["report"] = (["report"], none, none) :=
  c8_extension_stripped_once_before_dispatch.2.1 guessTypeModel ["report"] "report" rfl
    (Or.inl (by decide))

/-! ### Claim C9: binding never mutates the caller's mapping -/

/-- C9: both binder entry points leave the caller's parameter dict exactly
as it was, on every path including the exception (`KeyError`/`IndexError`)
paths: `_get_params_with_argspec` copies before its writes, and
`_remove_argspec_params_from_params` either returns the caller's dict
untouched (early return) or copies before every deletion, so the heap cell
the caller passed in holds the same associations after the call. -/
theorem c9_binding_preserves_caller_params (args defaults : List String) (h : Heap)
    (params : Nat) (remainder : List String) (hlt : params < h.dicts.length) :
    (get_params_with_argspec args h params remainder).1.get params = h.get params ∧
    (remove_argspec_params_from_params args defaults h params remainder).1.get params =
      h.get params := by
  have hne : params ≠ h.dicts.length := Nat.ne_of_lt hlt
  have halloc : (h.alloc (h.get params)).1.get params = h.get params :=
    heapGet_alloc_lt h _ params hlt
  constructor
  · simp only [get_params_with_argspec]
    split
    · exact halloc
    · simp only [heap_alloc_snd]
      rw [heapGet_setD_ne _ _ _ _ hne]
      exact halloc
  · simp only [remove_argspec_params_from_params]
    split
    · rfl
    · split
      · rename_i h1 heq
        have hfst := congrArg Prod.fst heq
        dsimp only at hfst
        simp only [heap_alloc_snd] at hfst
        rw [← hfst, reqLoop_get_ne _ _ hne]
        exact halloc
      · rename_i h1 rem1 heq
        have hfst := congrArg Prod.fst heq
        dsimp only at hfst
        simp only [heap_alloc_snd] at hfst
        simp only [heap_alloc_snd]
        rw [optLoop_get_ne _ _ hne, ← hfst, reqLoop_get_ne _ _ hne]
        exact halloc

/-- Witness for C9 at a concrete heap, mapping and signature. -/
theorem c9_binding_preserves_caller_params_witness :
    (get_params_with_argspec ["self", "x"] ⟨[[("x", "1"), ("y", "2")]]⟩ 0 ["r"]).1.get 0 =
      [("x", "1"), ("y", "2")] ∧
    (remove_argspec_params_from_params ["self", "x"] [] ⟨[[("x", "1"), ("y", "2")]]⟩ 0
      ["r"]).1.get 0 = [("x", "1"), ("y", "2")] :=
  c9_binding_preserves_caller_params ["self", "x"] [] ⟨[[("x", "1"), ("y", "2")]]⟩ 0 ["r"]
    (by decide)
